import Mathlib

/-!
Verification of the Grav-Nav-RL-Multiplayer orbital simulation.

Shallow embedding, over the reals, of:
  * `OrbitalEnvironment` (src/environment.py): `reset`, the RK4 `step` with
    post-integration tangential thrust, `default_reward`, and the
    termination condition;
  * `MultiShipOrbitalEnvironment` (src/environment.py): `add_ship`,
    `_compute_acc` with pairwise ship-to-ship perturbations, the per-ship
    termination condition, and `get_states` (modelled with an explicit
    heap so the copy semantics of `dict(s)` is visible);
  * the Hohmann guidance client (src/hohman_client.py):
    `calculate_orbital_elements`, the injection-burn vis-viva speed, the
    apsis-detection trigger of the circularization burn, and
    `send_manual_control`;
  * the module-level transfer computation of src/hohman_example.py.

Python floats are modelled as real numbers; a Python expression that would
raise `ZeroDivisionError` is modelled with `Option`.
-/

namespace GravNav

/-- A single vehicle state `[x, y, vx, vy]` as used throughout the code. -/
@[ext]
structure St4 where
  x : ℝ
  y : ℝ
  vx : ℝ
  vy : ℝ

instance : Inhabited St4 := ⟨⟨0, 0, 0, 0⟩⟩

/-! ## Single-body environment (`OrbitalEnvironment`, src/environment.py) -/

/-- `OrbitalEnvironment.reset` (environment.py lines 36-47).
`sample` stands for the value `np.random.uniform(0.2, 4.0)` would return on
this call; `init_r` is the radius fixed at construction time and `enforce_r`
records whether `r0` was supplied to `__init__`.  Note that the `vy`
assignment always uses `init_r`, while `x` uses the fresh `sample` when
`enforce_r` is false. -/
noncomputable def reset (GM init_r : ℝ) (enforce_r : Bool) (sample : ℝ) : St4 :=
  { x := if enforce_r then init_r else sample
    y := 0
    vx := 0
    vy := Real.sqrt (GM / init_r) }

/-- The state installed by `MultiShipOrbitalEnvironment.add_ship`
(environment.py lines 256-272) for a ship placed at radius `r0` (`r0` is the
explicit argument or the sampled value when the argument was omitted). -/
noncomputable def add_ship_state (GM r0 : ℝ) : St4 :=
  { x := r0, y := 0, vx := 0, vy := Real.sqrt (GM / r0) }

/-- The gravity-only acceleration helper inside `OrbitalEnvironment.step`
(environment.py lines 63-68): `dist` is clamped into `[1e-5, 5.0]` by
`np.clip` and the returned vector is `-GM / dist**2 * rhat` with
`rhat = [x, y] / dist`. -/
noncomputable def accel (GM x y : ℝ) : ℝ × ℝ :=
  let dist := min (max (Real.sqrt (x ^ 2 + y ^ 2)) (1 / 100000)) 5
  (-GM / dist ^ 2 * (x / dist), -GM / dist ^ 2 * (y / dist))

/-- The RK4 block of `OrbitalEnvironment.step` (environment.py lines 73-97),
translated stage by stage: `k1v../k1p..` etc. are the entries of the numpy
arrays `k1_v`, `k1_p`, ..., and the final state is the weighted
`(1,2,2,1)/6` update. -/
noncomputable def sourceRK4 (GM dt : ℝ) (s : St4) : St4 :=
  let k1vx := dt * (accel GM s.x s.y).1
  let k1vy := dt * (accel GM s.x s.y).2
  let k1px := dt * s.vx
  let k1py := dt * s.vy
  let k2vx := dt * (accel GM (s.x + 0.5 * k1px) (s.y + 0.5 * k1py)).1
  let k2vy := dt * (accel GM (s.x + 0.5 * k1px) (s.y + 0.5 * k1py)).2
  let k2px := dt * (s.vx + 0.5 * k1vx)
  let k2py := dt * (s.vy + 0.5 * k1vy)
  let k3vx := dt * (accel GM (s.x + 0.5 * k2px) (s.y + 0.5 * k2py)).1
  let k3vy := dt * (accel GM (s.x + 0.5 * k2px) (s.y + 0.5 * k2py)).2
  let k3px := dt * (s.vx + 0.5 * k2vx)
  let k3py := dt * (s.vy + 0.5 * k2vy)
  let k4vx := dt * (accel GM (s.x + k3px) (s.y + k3py)).1
  let k4vy := dt * (accel GM (s.x + k3px) (s.y + k3py)).2
  let k4px := dt * (s.vx + k3vx)
  let k4py := dt * (s.vy + k3vy)
  { x := s.x + (k1px + 2 * k2px + 2 * k3px + k4px) / 6
    y := s.y + (k1py + 2 * k2py + 2 * k3py + k4py) / 6
    vx := s.vx + (k1vx + 2 * k2vx + 2 * k3vx + k4vx) / 6
    vy := s.vy + (k1vy + 2 * k2vy + 2 * k3vy + k4vy) / 6 }

/-- The full state update of `OrbitalEnvironment.step` (environment.py lines
61-108): the RK4 block followed by the thrust section (lines 99-108), where
`action = [0, a]`, `dist = max(sqrt(x^2+y^2), 1e-5)`,
`rotation_matrix = [[rx, -ry], [ry, rx]]` and `thrust = R @ action` is added
to the velocity scaled by `dt`. -/
noncomputable def sourceStep (GM dt : ℝ) (s : St4) (a : ℝ) : St4 :=
  let s1 := sourceRK4 GM dt s
  let dist := max (Real.sqrt (s1.x ^ 2 + s1.y ^ 2)) (1 / 100000)
  let rx := s1.x / dist
  let ry := s1.y / dist
  let thrustx := rx * 0 + -ry * a
  let thrusty := ry * 0 + rx * a
  { x := s1.x, y := s1.y, vx := s1.vx + thrustx * dt, vy := s1.vy + thrusty * dt }

/-- Pointwise sum of two states, used by the generic RK4 scheme. -/
noncomputable def st4Add (p q : St4) : St4 :=
  ⟨p.x + q.x, p.y + q.y, p.vx + q.vx, p.vy + q.vy⟩

/-- Scalar multiple of a state, used by the generic RK4 scheme. -/
noncomputable def st4Smul (c : ℝ) (p : St4) : St4 :=
  ⟨c * p.x, c * p.y, c * p.vx, c * p.vy⟩

/-- The textbook RK4 scheme, written as the spec describes it: increments
`K1..K4` evaluated at the start, two midpoints and the end, combined with
weights `(1,2,2,1)/6`. -/
noncomputable def rk4K (f : St4 → St4) (dt : ℝ) (s : St4) : St4 :=
  let K1 := st4Smul dt (f s)
  let K2 := st4Smul dt (f (st4Add s (st4Smul 0.5 K1)))
  let K3 := st4Smul dt (f (st4Add s (st4Smul 0.5 K2)))
  let K4 := st4Smul dt (f (st4Add s K3))
  st4Add s (st4Smul (1 / 6) (st4Add K1 (st4Add (st4Smul 2 K2) (st4Add (st4Smul 2 K3) K4))))

/-- The gravity-only derivative of the 4-vector `[x, y, vx, vy]`: current
velocity for the position derivative, central gravity for the velocity
derivative. -/
noncomputable def gravDeriv (GM : ℝ) (s : St4) : St4 :=
  ⟨s.vx, s.vy, (accel GM s.x s.y).1, (accel GM s.x s.y).2⟩

/-- The thrust control applied as a post-integration velocity impulse, as
the spec words it: `dt * R * (0, a)` with the rotation matrix `R` built from
the radial unit vector of the current position, added to the velocity only. -/
noncomputable def specImpulse (dt : ℝ) (s : St4) (a : ℝ) : St4 :=
  let dist := max (Real.sqrt (s.x ^ 2 + s.y ^ 2)) (1 / 100000)
  { x := s.x
    y := s.y
    vx := s.vx + dt * (-(s.y / dist) * a)
    vy := s.vy + dt * (s.x / dist * a) }

lemma rk4K_gravDeriv_eq_sourceRK4 (GM dt : ℝ) (s : St4) :
    rk4K (gravDeriv GM) dt s = sourceRK4 GM dt s := by
  ext <;>
    simp only [rk4K, gravDeriv, sourceRK4, st4Add, st4Smul] <;>
    ring

/-- `OrbitalEnvironment.default_reward` (environment.py lines 122-129),
evaluated at the post-step position `(x, y)` of an environment whose initial
radius is `init_r`:
`np.clip((r_err / r_max_err) * 2, -2, 2)` is `min (max · (-2)) 2`. -/
noncomputable def default_reward (init_r x y action : ℝ) : ℝ :=
  let r := Real.sqrt (x ^ 2 + y ^ 2)
  let r_err := r - 1.0
  let r_max_err := max |init_r - 1| (1 / 100)
  let scaled_r_err := min (max (r_err / r_max_err * 2) (-2)) 2
  Real.exp (-scaled_r_err ^ 2) * Real.exp (-action ^ 2)

/-- The reward formula exactly as claim C3 words it: the radius error is
normalized by `max (|r0 - 1|) 1e-2` and then clipped to `[-2, 2]`, with no
other scaling. -/
noncomputable def claimReward (init_r x y action : ℝ) : ℝ :=
  let r := Real.sqrt (x ^ 2 + y ^ 2)
  let s := min (max ((r - 1.0) / max |init_r - 1| (1 / 100)) (-2)) 2
  Real.exp (-s ^ 2) * Real.exp (-action ^ 2)

/-- The reward formula of claim C3 amended with the factor 2 the code
applies before clipping (written with the clip in the other orientation,
`max (-2) (min · 2)`). -/
noncomputable def amendedReward (init_r x y action : ℝ) : ℝ :=
  let r := Real.sqrt (x ^ 2 + y ^ 2)
  let s := max (-2) (min (2 * ((r - 1.0) / max |init_r - 1| (1 / 100))) 2)
  Real.exp (-s ^ 2) * Real.exp (-action ^ 2)

/-- The episode-termination condition computed at the end of
`OrbitalEnvironment.step` (environment.py lines 100-118): it uses the
clamped `dist = max(sqrt(x^2+y^2), 1e-5)` of the post-step position and the
pre-increment `current_step`. -/
noncomputable def singleStepDone (current_step max_steps : ℕ) (x y : ℝ) : Prop :=
  let dist := max (Real.sqrt (x ^ 2 + y ^ 2)) (1 / 100000)
  dist > 5.0 ∨ dist < 0.1 ∨ current_step ≥ max_steps

/-- The per-ship termination condition of `MultiShipOrbitalEnvironment.step`
(environment.py lines 306-308): `dist = sqrt(x^2+y^2)` of the post-physics
position, ship marked done when `dist > 5.0 or dist < 0.1`. -/
noncomputable def multiShipDone (x y : ℝ) : Prop :=
  Real.sqrt (x ^ 2 + y ^ 2) > 5.0 ∨ Real.sqrt (x ^ 2 + y ^ 2) < 0.1

lemma sqrt_eval {a b : ℝ} (hb : 0 ≤ b) (h : b * b = a) : Real.sqrt a = b := by
  rw [← h]; exact Real.sqrt_mul_self hb

/-! ## Claim theorems for the single-body environment -/

/-- Claim C1 (code bug evidence): `OrbitalEnvironment` built with `r0=None`
whose construction-time draw was `init_r = 4`; `reset()` then draws the
fresh sample `1`.  The vehicle is placed at radius `1` but its velocity is
`sqrt(GM/4) = 1/2`, not the circular speed `sqrt(GM/1) = 1` at its actual
radius, so the claimed invariant fails on the random-radius `reset` branch
(the stale `init_r` is used for `vy`, environment.py line 44). -/
theorem C1_reset_stale_velocity :
    (reset 1 4 false 1).x = 1 ∧ (reset 1 4 false 1).vy = 1 / 2 ∧
      (reset 1 4 false 1).vy ≠ Real.sqrt (1 / (reset 1 4 false 1).x) := by
  have hx : (reset 1 4 false 1).x = 1 := rfl
  have hvy : (reset 1 4 false 1).vy = 1 / 2 := by
    show Real.sqrt (1 / 4) = 1 / 2
    exact sqrt_eval (by norm_num) (by norm_num)
  refine ⟨hx, hvy, ?_⟩
  rw [hvy, hx]
  rw [show Real.sqrt (1 / 1) = 1 by rw [one_div_one, Real.sqrt_one]]
  norm_num

/-- Claim C2: the single-body `step` decomposes exactly as the spec states:
standard RK4 with weights `(1,2,2,1)/6` under the gravity-only clamped
acceleration, followed by (not interleaved with) the velocity impulse
`dt * R * (0, action)` built from the post-integration radial unit vector;
the impulse changes velocity only, never position. -/
theorem C2_step_decomposition (GM dt : ℝ) (s : St4) (a : ℝ) :
    sourceStep GM dt s a = specImpulse dt (rk4K (gravDeriv GM) dt s) a ∧
      (sourceStep GM dt s a).x = (rk4K (gravDeriv GM) dt s).x ∧
      (sourceStep GM dt s a).y = (rk4K (gravDeriv GM) dt s).y := by
  rw [rk4K_gravDeriv_eq_sourceRK4]
  refine ⟨?_, rfl, rfl⟩
  ext <;> simp only [sourceStep, specImpulse] <;> ring

/-- Claim C3 counterexample: with `r0 = 2` and post-step position
`(3/2, 0)` (radius `3/2`) and zero action, the code's reward is
`exp(-1)` — the normalized error `1/2` is multiplied by 2 before clipping —
while the claimed formula (no scaling beyond the normalization) gives
`exp(-1/4)`. -/
theorem C3_counterexample :
    default_reward 2 (3 / 2) 0 0 ≠ claimReward 2 (3 / 2) 0 0 := by
  have hr : Real.sqrt ((3 / 2 : ℝ) ^ 2 + 0 ^ 2) = 3 / 2 := by
    rw [show ((3 / 2 : ℝ) ^ 2 + 0 ^ 2) = (3 / 2) * (3 / 2) by ring]
    exact sqrt_eval (by norm_num) rfl
  have habs : max |(2 : ℝ) - 1| (1 / 100) = 1 := by
    rw [show |(2 : ℝ) - 1| = 1 by rw [show (2 : ℝ) - 1 = 1 by norm_num]; exact abs_one]
    norm_num
  simp only [default_reward, claimReward, hr, habs]
  rw [show ((3 : ℝ) / 2 - 1.0) / 1 * 2 = 1 by norm_num,
    show ((3 : ℝ) / 2 - 1.0) / 1 = 1 / 2 by norm_num,
    show min (max (1 : ℝ) (-2)) 2 = 1 by norm_num,
    show min (max (1 / 2 : ℝ) (-2)) 2 = 1 / 2 by norm_num]
  intro h
  have h2 := mul_right_cancel₀ (Real.exp_ne_zero _) h
  have h3 := Real.exp_eq_exp.mp h2
  norm_num at h3

/-- Claim C3 amended: the default reward is
`exp(-s^2) * exp(-a^2)` with `s = clip(2 * (r - 1) / max(|r0 - 1|, 1e-2), -2, 2)`
— the normalized radius error is scaled by 2 before the clip. -/
theorem C3_amended_reward (init_r x y a : ℝ) :
    default_reward init_r x y a = amendedReward init_r x y a := by
  simp only [default_reward, amendedReward]
  have key : ∀ v : ℝ, min (max (v * 2) (-2)) 2 = max (-2) (min (2 * v) 2) := by
    intro v
    rw [mul_comm v 2]
    simp only [min_def, max_def]
    split_ifs <;> linarith
  rw [key]

/-- Claim C6: for both engines a post-step radius inside `[0.1, 5.0]`
(boundaries included) does not mark the vehicle done by the radius
criterion, any radius strictly outside marks it done on that very step, and
the single-body environment is additionally done once `current_step`
reaches `max_steps`. -/
theorem C6_termination_boundaries (x y : ℝ) (cs ms : ℕ) :
    (0.1 ≤ Real.sqrt (x ^ 2 + y ^ 2) ∧ Real.sqrt (x ^ 2 + y ^ 2) ≤ 5.0 ∧ cs < ms →
        ¬singleStepDone cs ms x y ∧ ¬multiShipDone x y) ∧
      (Real.sqrt (x ^ 2 + y ^ 2) > 5.0 ∨ Real.sqrt (x ^ 2 + y ^ 2) < 0.1 →
        singleStepDone cs ms x y ∧ multiShipDone x y) ∧
      (cs ≥ ms → singleStepDone cs ms x y) := by
  set r := Real.sqrt (x ^ 2 + y ^ 2) with hr
  refine ⟨?_, ?_, ?_⟩
  · rintro ⟨h1, h2, h3⟩
    have hm : max r (1 / 100000) = r := max_eq_left (by norm_num at h1 ⊢; linarith)
    constructor
    · simp only [singleStepDone, ← hr, hm]
      push_neg
      exact ⟨h2, by norm_num at h1 ⊢; linarith, by omega⟩
    · simp only [multiShipDone, ← hr]
      push_neg
      exact ⟨h2, by norm_num at h1 ⊢; linarith⟩
  · intro h
    rcases h with h | h
    · have hm : max r (1 / 100000) = r :=
        max_eq_left (by norm_num at h ⊢; linarith)
      exact ⟨Or.inl (by simp only [singleStepDone, ← hr, hm]; exact h),
        Or.inl h⟩
    · have hm : max r (1 / 100000) < 0.1 := by
        apply max_lt h
        norm_num
      exact ⟨Or.inr (Or.inl (by simp only [singleStepDone, ← hr]; exact hm)),
        Or.inr h⟩
  · intro h
    exact Or.inr (Or.inr h)

/-- Claim C6 witness: a vehicle exactly at radius 5 is not done in either
engine (with the step budget not exhausted), and one at radius 6 is done in
both. -/
theorem C6_termination_witness :
    ((¬singleStepDone 0 10 5 0 ∧ ¬multiShipDone 5 0) ∧
      (singleStepDone 0 10 6 0 ∧ multiShipDone 6 0)) := by
  have h5 : Real.sqrt ((5 : ℝ) ^ 2 + 0 ^ 2) = 5 := by
    rw [show ((5 : ℝ) ^ 2 + 0 ^ 2) = 5 * 5 by ring]
    exact sqrt_eval (by norm_num) rfl
  have h6 : Real.sqrt ((6 : ℝ) ^ 2 + 0 ^ 2) = 6 := by
    rw [show ((6 : ℝ) ^ 2 + 0 ^ 2) = 6 * 6 by ring]
    exact sqrt_eval (by norm_num) rfl
  exact ⟨(C6_termination_boundaries 5 0 0 10).1
      ⟨by rw [h5]; norm_num, by rw [h5]; norm_num, by norm_num⟩,
    (C6_termination_boundaries 6 0 0 10).2.1 (Or.inl (by rw [h6]; norm_num))⟩

/-! ## Multi-ship engine: `_compute_acc` (environment.py lines 323-346) -/

/-- The central-gravity part of `MultiShipOrbitalEnvironment._compute_acc`
(environment.py lines 326-329): `dist = max(sqrt(x^2+y^2), 1e-5)`. -/
noncomputable def centralAcc (GM x y : ℝ) : ℝ × ℝ :=
  let dist := max (Real.sqrt (x ^ 2 + y ^ 2)) (1 / 100000)
  (-GM / dist ^ 2 * (x / dist), -GM / dist ^ 2 * (y / dist))

/-- The mutual-gravity contribution of one other ship at `(ox, oy)` to the
acceleration at `(x, y)` (environment.py lines 337-344): skipped entirely
when the inter-ship distance is below `1e-3`, otherwise
`(GM * 0.1) / odist^2 * o_rhat`. -/
noncomputable def pairPerturb (GM x y ox oy : ℝ) : ℝ × ℝ :=
  let dx := ox - x
  let dy := oy - y
  let odist := Real.sqrt (dx ^ 2 + dy ^ 2)
  if odist < 1 / 1000 then (0, 0)
  else (GM * 0.1 / odist ^ 2 * (dx / odist), GM * 0.1 / odist ^ 2 * (dy / odist))

/-- `MultiShipOrbitalEnvironment._compute_acc` (environment.py lines
323-346): central gravity plus the perturbations of every other ship in the
frozen `positions` snapshot (the ship itself is already excluded from
`others`). -/
noncomputable def compute_acc (GM x y : ℝ) (others : List (ℝ × ℝ)) : ℝ × ℝ :=
  others.foldl
    (fun acc p =>
      (acc.1 + (pairPerturb GM x y p.1 p.2).1, acc.2 + (pairPerturb GM x y p.1 p.2).2))
    (centralAcc GM x y)

/-- Claim C7: a pair of distinct ships at distance `d < 1e-3` contributes
exactly zero mutual perturbation (the pair is skipped, so no division by the
small `d` is performed), while at `d ≥ 1e-3` the contribution is the
attractive term `0.1 * GM / d^2` along the unit vector toward the other
ship — in particular its magnitude is exactly `GM * 0.1 / d^2`. -/
theorem C7_pair_perturbation (GM x y ox oy d : ℝ)
    (hd : d = Real.sqrt ((ox - x) ^ 2 + (oy - y) ^ 2)) :
    (d < 1 / 1000 →
        pairPerturb GM x y ox oy = (0, 0) ∧
          compute_acc GM x y [(ox, oy)] = centralAcc GM x y) ∧
      (1 / 1000 ≤ d →
        pairPerturb GM x y ox oy =
            (GM * 0.1 / d ^ 2 * ((ox - x) / d), GM * 0.1 / d ^ 2 * ((oy - y) / d)) ∧
          (0 ≤ GM →
            Real.sqrt ((pairPerturb GM x y ox oy).1 ^ 2 + (pairPerturb GM x y ox oy).2 ^ 2) =
              GM * 0.1 / d ^ 2)) := by
  constructor
  · intro h
    have hzero : pairPerturb GM x y ox oy = (0, 0) := by
      rw [pairPerturb]
      rw [if_pos (by rw [← hd]; exact h)]
    refine ⟨hzero, ?_⟩
    simp only [compute_acc, List.foldl, hzero]
    exact Prod.ext (add_zero _) (add_zero _)
  · intro h
    have hpos : 0 < d := lt_of_lt_of_le (by norm_num) h
    have hne : ¬Real.sqrt ((ox - x) ^ 2 + (oy - y) ^ 2) < 1 / 1000 := by
      rw [← hd]; exact not_lt.mpr h
    have hval : pairPerturb GM x y ox oy =
        (GM * 0.1 / d ^ 2 * ((ox - x) / d), GM * 0.1 / d ^ 2 * ((oy - y) / d)) := by
      rw [pairPerturb]
      rw [if_neg hne, ← hd]
    refine ⟨hval, fun hGM => ?_⟩
    have hdd : d ^ 2 = (ox - x) ^ 2 + (oy - y) ^ 2 := by
      rw [hd]; exact Real.sq_sqrt (by positivity)
    rw [hval]
    have hsum : (GM * 0.1 / d ^ 2 * ((ox - x) / d)) ^ 2 +
        (GM * 0.1 / d ^ 2 * ((oy - y) / d)) ^ 2 = (GM * 0.1 / d ^ 2) ^ 2 := by
      have expand : (GM * 0.1 / d ^ 2 * ((ox - x) / d)) ^ 2 +
          (GM * 0.1 / d ^ 2 * ((oy - y) / d)) ^ 2 =
          (GM * 0.1 / d ^ 2) ^ 2 * (((ox - x) ^ 2 + (oy - y) ^ 2) / d ^ 2) := by
        ring
      rw [expand, ← hdd, div_self (by positivity), mul_one]
    rw [hsum]
    exact Real.sqrt_sq (by positivity)

/-- Claim C7 witness: two ships at distance `5e-4 < 1e-3` produce zero
perturbation and leave `_compute_acc` at pure central gravity; two ships at
distance `1 ≥ 1e-3` produce the perturbation `(0.1, 0)` of magnitude
`0.1 = GM * 0.1 / 1^2` (here `GM = 1`). -/
theorem C7_pair_witness :
    (pairPerturb 1 0 0 (1 / 2000) 0 = (0, 0) ∧
        compute_acc 1 0 0 [(1 / 2000, 0)] = centralAcc 1 0 0) ∧
      pairPerturb 1 0 0 1 0 =
        (1 * 0.1 / 1 ^ 2 * ((1 - 0) / 1), 1 * 0.1 / 1 ^ 2 * ((0 - 0) / 1)) := by
  have h1 : Real.sqrt (((1 : ℝ) / 2000 - 0) ^ 2 + (0 - 0) ^ 2) = 1 / 2000 := by
    rw [show (((1 : ℝ) / 2000 - 0) ^ 2 + (0 - 0) ^ 2) = (1 / 2000) * (1 / 2000) by ring]
    exact sqrt_eval (by norm_num) rfl
  have h2 : Real.sqrt (((1 : ℝ) - 0) ^ 2 + (0 - 0) ^ 2) = 1 := by
    rw [show (((1 : ℝ) - 0) ^ 2 + (0 - 0) ^ 2) = 1 * 1 by ring]
    exact sqrt_eval (by norm_num) rfl
  exact ⟨(C7_pair_perturbation 1 0 0 (1 / 2000) 0 (1 / 2000) h1.symm).1 (by norm_num),
    ((C7_pair_perturbation 1 0 0 1 0 1 h2.symm).2 (by norm_num)).1⟩

/-! ## Orbital-elements calculator (`calculate_orbital_elements`,
src/hohman_client.py lines 72-99) -/

/-- The module-level gravitational parameter of src/hohman_client.py
(line 15): `GM = 1.0`. -/
noncomputable def hohGM : ℝ := 1.0

/-- The triple returned by `calculate_orbital_elements`: specific energy,
semi-major axis (`none` models Python's `float('inf')`, the parabolic
case), and eccentricity. -/
structure OrbElems where
  E : ℝ
  a : Option ℝ
  ecc : ℝ

/-- `term = h2 / (GM * a)` of hohman_client.py line 94; with `a = inf`
Python's float arithmetic yields `term = 0.0`, which the `none` branch
models. -/
noncomputable def eccTerm (h2 : ℝ) (a : Option ℝ) : ℝ :=
  match a with
  | none => 0
  | some av => h2 / (hohGM * av)

/-- `calculate_orbital_elements` (hohman_client.py lines 72-99).  The
energy line `E = v2/2 - GM/r` divides by the *unclamped* radius, so the
Python code raises `ZeroDivisionError` at the origin: that raise is
modelled by `none`. -/
noncomputable def calculate_orbital_elements (x y vx vy : ℝ) : Option OrbElems :=
  let r := Real.sqrt (x * x + y * y)
  if r = 0 then none
  else
    let v2 := vx * vx + vy * vy
    let E := v2 / 2 - hohGM / r
    let a : Option ℝ := if |E| < 1 / 1000000 then none else some (-hohGM / (2 * E))
    let h2 := (x * vy - y * vx) ^ 2
    let term := eccTerm h2 a
    let e := if term ≤ 1 then Real.sqrt (1 - term) else 0
    some ⟨E, a, e⟩

lemma sqrt_mul_self_add_eq_zero_iff (x y : ℝ) :
    Real.sqrt (x * x + y * y) = 0 ↔ x = 0 ∧ y = 0 := by
  rw [Real.sqrt_eq_zero (add_nonneg (mul_self_nonneg x) (mul_self_nonneg y))]
  constructor
  · intro h
    constructor
    · exact mul_self_eq_zero.mp (le_antisymm (by nlinarith [mul_self_nonneg y]) (mul_self_nonneg x))
    · exact mul_self_eq_zero.mp (le_antisymm (by nlinarith [mul_self_nonneg x]) (mul_self_nonneg y))
  · rintro ⟨hx, hy⟩
    rw [hx, hy]; ring

/-- Claim C8 counterexample: the claimed "defined even at r = 0" fails —
at the origin `calculate_orbital_elements` raises (`E = v2/2 - GM/r`
divides by the unclamped radius `r = 0`), modelled here as `none`. -/
theorem C8_counterexample : calculate_orbital_elements 0 0 1 1 = none := by
  rw [calculate_orbital_elements]
  rw [if_pos]
  rw [show ((0 : ℝ) * 0 + 0 * 0) = 0 by ring]
  exact Real.sqrt_zero

/-- Claim C8 amended: `calculate_orbital_elements` is defined for every
state except the origin (where the unclamped division `GM/r` raises); on
every defined input, `E = v^2/2 - GM/r`, the semi-major axis is infinite
exactly when `|E| < 1e-6` and `-GM/(2E)` otherwise, and the eccentricity
branch returns `sqrt(1 - term)` only when `term ≤ 1` — so the square-root
argument is never negative and the domain-error branch is unreachable. -/
theorem C8_amended_total (x y vx vy : ℝ) :
    (calculate_orbital_elements x y vx vy = none ↔ x = 0 ∧ y = 0) ∧
      ∀ o : OrbElems, calculate_orbital_elements x y vx vy = some o →
        o.E = (vx * vx + vy * vy) / 2 - hohGM / Real.sqrt (x * x + y * y) ∧
          (|o.E| < 1 / 1000000 → o.a = none) ∧
          (1 / 1000000 ≤ |o.E| → o.a = some (-hohGM / (2 * o.E))) ∧
          (eccTerm ((x * vy - y * vx) ^ 2) o.a ≤ 1 →
            o.ecc = Real.sqrt (1 - eccTerm ((x * vy - y * vx) ^ 2) o.a) ∧
              0 ≤ 1 - eccTerm ((x * vy - y * vx) ^ 2) o.a) ∧
          (1 < eccTerm ((x * vy - y * vx) ^ 2) o.a → o.ecc = 0) := by
  by_cases hr : Real.sqrt (x * x + y * y) = 0
  · constructor
    · rw [calculate_orbital_elements, if_pos hr]
      simp [sqrt_mul_self_add_eq_zero_iff x y |>.mp hr]
    · intro o ho
      rw [calculate_orbital_elements, if_pos hr] at ho
      exact absurd ho (by simp)
  · constructor
    · rw [calculate_orbital_elements, if_neg hr]
      simp only [Option.some_ne_none, false_iff]
      intro hcontra
      exact hr ((sqrt_mul_self_add_eq_zero_iff x y).mpr hcontra)
    · intro o ho
      rw [calculate_orbital_elements, if_neg hr, Option.some.injEq] at ho
      subst ho
      refine ⟨rfl, ?_, ?_, ?_, ?_⟩
      · intro hE
        exact if_pos hE
      · intro hE
        exact if_neg (not_lt.mpr hE)
      · intro ht
        exact ⟨if_pos ht, by linarith⟩
      · intro ht
        exact if_neg (not_le.mpr ht)

/-- Claim C8 witness: at the state `(1, 0, 0, 0)` (radius 1, at rest) the
calculator does not raise. -/
theorem C8_witness : calculate_orbital_elements 1 0 0 0 ≠ none := fun h =>
  absurd ((C8_amended_total 1 0 0 0).1.mp h).1 one_ne_zero

/-! ## Hohmann transfer computation (src/hohman_example.py lines 31-81 and
src/hohman_client.py `choose_action` phase 1, lines 131-151) -/

/-- The quantities computed at module level by src/hohman_example.py. -/
structure HPlan where
  r1 : ℝ
  v_tangential_init : ℝ
  v1_circular : ℝ
  a_transfer : ℝ
  v1_transfer : ℝ
  v2_transfer : ℝ
  delta_v1 : ℝ
  delta_v2 : ℝ
  v2_circular : ℝ
  a_1 : ℝ
  a_2 : ℝ
  transfer_time : ℝ

/-- The module-level transfer computation of src/hohman_example.py (lines
31-81), as a function of the gravitational parameter, the time step, the
destination radius `r2` and the initial state.  Both `going_inward`
branches compute identical formulas for these quantities, so the branch is
not modelled. -/
noncomputable def hohmannPlan (GM dt r2 : ℝ) (s : St4) : HPlan :=
  let r1 := Real.sqrt (s.x ^ 2 + s.y ^ 2)
  let v_tangential_init := if 1 / 100000 < r1 then (s.x * s.vy - s.y * s.vx) / r1 else 0
  let v1_circular := Real.sqrt (GM / r1)
  let a_transfer := (r1 + r2) / 2
  let v1_transfer := Real.sqrt (GM * (2 / r1 - 1 / a_transfer))
  let v2_transfer := Real.sqrt (GM * (2 / r2 - 1 / a_transfer))
  let delta_v1 := v1_transfer - v_tangential_init
  let delta_v2 := Real.sqrt (GM / r2) - v2_transfer
  let v2_circular := Real.sqrt (GM / r2)
  { r1 := r1
    v_tangential_init := v_tangential_init
    v1_circular := v1_circular
    a_transfer := a_transfer
    v1_transfer := v1_transfer
    v2_transfer := v2_transfer
    delta_v1 := delta_v1
    delta_v2 := delta_v2
    v2_circular := v2_circular
    a_1 := delta_v1 / dt
    a_2 := delta_v2 / dt
    transfer_time := Real.pi * Real.sqrt (a_transfer ^ 3 / GM) }

/-- The injection-burn target speed of `choose_action` (hohman_client.py
lines 134-141): `a_transfer = (r1 + r2) / 2` and the vis-viva speed
`sqrt(GM * (2/r1 - 1/a_transfer))`. -/
noncomputable def injectionSpeed (GM r1 r2 : ℝ) : ℝ :=
  Real.sqrt (GM * (2 / r1 - 1 / ((r1 + r2) / 2)))

/-- The plan of src/hohman_example.py instantiated at `GM = 1`,
`dt = 0.01`, destination radius `4` and the circular initial state
`(1, 0, 0, 1)` at radius `r1 = 1`. -/
noncomputable def examplePlan : HPlan := hohmannPlan 1 0.01 4 ⟨1, 0, 0, 1⟩

lemma sqrt_one_sq : Real.sqrt ((1 : ℝ) ^ 2 + 0 ^ 2) = 1 := by
  rw [show ((1 : ℝ) ^ 2 + 0 ^ 2) = 1 * 1 by ring]
  exact sqrt_eval zero_le_one rfl

lemma examplePlan_eval :
    examplePlan.r1 = 1 ∧
      examplePlan.v_tangential_init = 1 ∧
      examplePlan.v1_circular = 1 ∧
      examplePlan.a_transfer = 5 / 2 ∧
      examplePlan.v1_transfer = Real.sqrt 1.6 ∧
      examplePlan.v2_transfer = Real.sqrt 0.1 ∧
      examplePlan.delta_v1 = Real.sqrt 1.6 - 1 ∧
      examplePlan.delta_v2 = 1 / 2 - Real.sqrt 0.1 ∧
      examplePlan.v2_circular = 1 / 2 ∧
      examplePlan.transfer_time = Real.pi * Real.sqrt ((5 / 2) ^ 3) := by
  have h14 : Real.sqrt ((1 : ℝ) / 4) = 1 / 2 :=
    sqrt_eval (by norm_num) (by norm_num)
  have h11 : Real.sqrt ((1 : ℝ) / 1) = 1 := by
    rw [one_div_one, Real.sqrt_one]
  simp only [examplePlan, hohmannPlan, sqrt_one_sq]
  rw [if_pos (by norm_num : (1 : ℝ) / 100000 < 1)]
  refine ⟨trivial, by norm_num, h11, by norm_num, ?_, ?_, ?_, ?_, ?_, ?_⟩
  · rw [show (1 : ℝ) * (2 / 1 - 1 / ((1 + 4) / 2)) = 1.6 by norm_num]
  · rw [show (1 : ℝ) * (2 / 4 - 1 / ((1 + 4) / 2)) = 0.1 by norm_num]
  · rw [show (1 : ℝ) * (2 / 1 - 1 / ((1 + 4) / 2)) = 1.6 by norm_num]
    norm_num
  · rw [show (1 : ℝ) * (2 / 4 - 1 / ((1 + 4) / 2)) = 0.1 by norm_num,
      show (1 : ℝ) / 4 = 1 / 4 by norm_num, h14]
  · exact h14
  · rw [show (((1 : ℝ) + 4) / 2) ^ 3 / 1 = (5 / 2) ^ 3 by norm_num]

/-- Bounds on the true transfer time `pi * sqrt(2.5^3)`. -/
lemma transferTime_bounds :
    12.418 < Real.pi * Real.sqrt ((5 / 2 : ℝ) ^ 3) ∧
      Real.pi * Real.sqrt ((5 / 2 : ℝ) ^ 3) < 12.4183 := by
  have harg : ((5 / 2 : ℝ) ^ 3) = 15.625 := by norm_num
  have hlo : (3.9528 : ℝ) < Real.sqrt 15.625 :=
    (Real.lt_sqrt (by norm_num)).mpr (by norm_num)
  have hhi : Real.sqrt 15.625 < 3.95285 :=
    (Real.sqrt_lt' (by norm_num)).mpr (by norm_num)
  have hpl : Real.pi < 3.141593 := Real.pi_lt_d6
  have hpg : 3.141592 < Real.pi := Real.pi_gt_d6
  rw [harg]
  constructor
  · nlinarith [Real.sqrt_nonneg (15.625 : ℝ), Real.pi_pos]
  · nlinarith [Real.sqrt_nonneg (15.625 : ℝ), Real.pi_pos]

/-- Claim C4 counterexample: the spec's literal value for the transfer time
is wrong — `pi * sqrt(2.5^3)` differs from the stated `12.41421` by more
than `3e-3` (the true value is `12.41823...`), while every other literal of
that spec sentence is stated to six decimals. -/
theorem C4_counterexample :
    3 / 1000 < |examplePlan.transfer_time - 12.41421| := by
  have he : examplePlan.transfer_time = Real.pi * Real.sqrt ((5 / 2) ^ 3) := by
    simp only [examplePlan, hohmannPlan, sqrt_one_sq]
    rw [show (((1 : ℝ) + 4) / 2) ^ 3 / 1 = (5 / 2) ^ 3 by norm_num]
  have hb := transferTime_bounds
  rw [he, abs_of_pos (by linarith [hb.1])]
  linarith [hb.1]

/-- Claim C4 amended: the injection-burn formulas `a_t = (r1+r2)/2`,
`v_req = sqrt(GM*(2/r1 - 1/a_t))` instantiated at `GM=1, r1=1, r2=4` give
`a_transfer = 2.5`, `v1_circular = 1`, `v1_transfer = sqrt(1.6)`,
`delta_v1 = sqrt(1.6) - 1`, `v2_transfer = sqrt(0.1)`,
`v2_circular = 0.5`, `delta_v2 = 0.5 - sqrt(0.1)` and
`transfer_time = pi * sqrt(2.5^3)`, whose value lies in
`(12.418, 12.4183)` (approximately `12.41823`, not the spec's `12.41421`). -/
theorem C4_visviva_values :
    examplePlan.a_transfer = 5 / 2 ∧
      examplePlan.v1_circular = 1 ∧
      examplePlan.v1_transfer = Real.sqrt 1.6 ∧
      examplePlan.delta_v1 = Real.sqrt 1.6 - 1 ∧
      examplePlan.v2_transfer = Real.sqrt 0.1 ∧
      examplePlan.v2_circular = 1 / 2 ∧
      examplePlan.delta_v2 = 1 / 2 - Real.sqrt 0.1 ∧
      examplePlan.transfer_time = Real.pi * Real.sqrt ((5 / 2) ^ 3) ∧
      12.418 < examplePlan.transfer_time ∧
      examplePlan.transfer_time < 12.4183 ∧
      injectionSpeed 1 1 4 = Real.sqrt 1.6 ∧
      examplePlan.v1_transfer = injectionSpeed 1 1 4 := by
  obtain ⟨h1, h2, h3, h4, h5, h6, h7, h8, h9, h10⟩ := examplePlan_eval
  have hinj : injectionSpeed 1 1 4 = Real.sqrt 1.6 := by
    rw [injectionSpeed, show (1 : ℝ) * (2 / 1 - 1 / ((1 + 4) / 2)) = 1.6 by norm_num]
  have hb := transferTime_bounds
  exact ⟨h4, h3, h5, h7, h6, h9, h8, h10, by rw [h10]; exact hb.1,
    by rw [h10]; exact hb.2, hinj, by rw [h5, hinj]⟩

/-! ## Guidance controller coast phase (src/hohman_client.py
`choose_action`, lines 153-181) -/

/-- `compute_radius` of hohman_client.py (line 30). -/
noncomputable def radius4 (s : St4) : ℝ := Real.sqrt (s.x * s.x + s.y * s.y)

/-- The radial velocity of `choose_action` (hohman_client.py line 124):
`(x*vx + y*vy) / r if r > 1e-5 else 0`. -/
noncomputable def vRad4 (s : St4) : ℝ :=
  if 1 / 100000 < radius4 s then (s.x * s.vx + s.y * s.vy) / radius4 s else 0

/-- The circularization-burn condition of `choose_action` (hohman_client.py
lines 159-164): `apsis_reached = prev_v_rad * v_rad < 0` AND
`near_target = abs(r - TARGET_RADIUS) < 0.1` with `TARGET_RADIUS = 1.0`. -/
noncomputable def burnCond (prev : ℝ) (s : St4) : Prop :=
  prev * vRad4 s < 0 ∧ |radius4 s - 1.0| < 0.1

noncomputable instance (prev : ℝ) (s : St4) : Decidable (burnCond prev s) :=
  inferInstanceAs (Decidable (prev * vRad4 s < 0 ∧ |radius4 s - 1.0| < 0.1))

/-- The tick at which the circularization burn fires, given the previous
tick's radial velocity and the telemetry stream: each tick compares
`prev_v_rad * v_rad < 0` and the target proximity, fires (`some k`) at the
first tick satisfying both, and otherwise carries the tick's radial
velocity forward as the new `prev_v_rad` (hohman_client.py lines 153-177). -/
noncomputable def triggerTick (prev : ℝ) : List St4 → Option ℕ
  | [] => none
  | s :: rest =>
      if burnCond prev s then some 0
      else (triggerTick (vRad4 s) rest).map (· + 1)

/-- The coast phase started on the first post-injection tick: `getattr`'s
default makes `prev_v_rad` equal that tick's own radial velocity
(hohman_client.py line 154). -/
noncomputable def coastRun (states : List St4) : Option ℕ :=
  match states with
  | [] => none
  | s :: _ => triggerTick (vRad4 s) states

/-- `prev_v_rad` as seen at tick `i` of the coast phase: the explicitly
given value at tick 0, the radial velocity of tick `i - 1` afterwards. -/
noncomputable def prevVR (prev : ℝ) (states : List St4) : ℕ → ℝ
  | 0 => prev
  | k + 1 => vRad4 (states.getD k default)

lemma prevVR_cons (prev : ℝ) (s : St4) (rest : List St4) (k : ℕ) :
    prevVR prev (s :: rest) (k + 1) = prevVR (vRad4 s) rest k := by
  cases k with
  | zero => simp [prevVR, List.getD_cons_zero]
  | succ m => simp [prevVR, List.getD_cons_succ]

/-- Claim C5 counterexample: the radial-velocity sequence flips sign
between tick 0 (state `(3,0,1,0)`, `v_r = 1`) and tick 1 (state
`(3,0,-1,0)`, `v_r = -1`), yet the controller never triggers the
circularization burn (the radius 3 is not within 0.1 of the target radius
1), contradicting "triggered exactly at tick k+1 ... regardless of the
current radius's distance from the target radius". -/
theorem C5_counterexample :
    vRad4 ⟨3, 0, 1, 0⟩ * vRad4 ⟨3, 0, -1, 0⟩ < 0 ∧
      coastRun [⟨3, 0, 1, 0⟩, ⟨3, 0, -1, 0⟩] = none := by
  have hrad1 : radius4 ⟨3, 0, 1, 0⟩ = 3 := by
    rw [radius4]
    exact sqrt_eval (by norm_num) (by norm_num)
  have hrad2 : radius4 ⟨3, 0, -1, 0⟩ = 3 := by
    rw [radius4]
    exact sqrt_eval (by norm_num) (by norm_num)
  have hv1 : vRad4 ⟨3, 0, 1, 0⟩ = 1 := by
    rw [vRad4, hrad1, if_pos (by norm_num : (1 : ℝ) / 100000 < 3)]
    norm_num
  have hv2 : vRad4 ⟨3, 0, -1, 0⟩ = -1 := by
    rw [vRad4, hrad2, if_pos (by norm_num : (1 : ℝ) / 100000 < 3)]
    norm_num
  refine ⟨by rw [hv1, hv2]; norm_num, ?_⟩
  have hnb1 : ¬burnCond (vRad4 ⟨3, 0, 1, 0⟩) ⟨3, 0, 1, 0⟩ := by
    rintro ⟨h, -⟩
    rw [hv1] at h
    norm_num at h
  have hnb2 : ¬burnCond (vRad4 ⟨3, 0, 1, 0⟩) ⟨3, 0, -1, 0⟩ := by
    rintro ⟨-, h⟩
    rw [hrad2] at h
    norm_num at h
  rw [coastRun]
  rw [triggerTick, if_neg hnb1, triggerTick, if_neg hnb2, triggerTick]
  rfl

/-- Claim C5 amended: during the coast phase the circularization burn
triggers at tick `j` if and only if `j` is the first tick at which the
radial velocity's sign flips relative to the previous tick AND the radius
is within 0.1 of the target radius 1.0 — a sign flip alone (far from the
target radius) does not trigger the burn. -/
theorem C5_trigger_characterization (states : List St4) :
    ∀ (prev : ℝ) (j : ℕ),
      triggerTick prev states = some j ↔
        j < states.length ∧
          burnCond (prevVR prev states j) (states.getD j default) ∧
          ∀ i, i < j → ¬burnCond (prevVR prev states i) (states.getD i default) := by
  induction states with
  | nil =>
      intro prev j
      simp [triggerTick]
  | cons s rest ih =>
      intro prev j
      by_cases hb : burnCond prev s
      · rw [triggerTick, if_pos hb]
        cases j with
        | zero =>
            simp only [Option.some.injEq, List.length_cons]
            constructor
            · intro _
              exact ⟨Nat.succ_pos _, by simpa [prevVR, List.getD_cons_zero] using hb,
                fun i hi => absurd hi (Nat.not_lt_zero i)⟩
            · intro _
              trivial
        | succ k =>
            simp only [Option.some.injEq, List.length_cons]
            constructor
            · intro h
              exact absurd h (by omega)
            · rintro ⟨-, -, hall⟩
              exact absurd hb (by simpa [prevVR, List.getD_cons_zero] using hall 0 (Nat.succ_pos k))
      · rw [triggerTick, if_neg hb]
        cases j with
        | zero =>
            simp only [Option.map_eq_some', List.length_cons]
            constructor
            · rintro ⟨m, -, hm1⟩
              exact absurd hm1 (by omega)
            · rintro ⟨-, hcond, -⟩
              exact absurd (by simpa [prevVR, List.getD_cons_zero] using hcond) hb
        | succ k =>
            have hmap : (triggerTick (vRad4 s) rest).map (· + 1) = some (k + 1) ↔
                triggerTick (vRad4 s) rest = some k := by
              constructor
              · intro h
                obtain ⟨m, hm, hm1⟩ := Option.map_eq_some'.mp h
                have : m = k := by omega
                rw [← this]; exact hm
              · intro h
                rw [h]; rfl
            rw [hmap, ih (vRad4 s) k]
            constructor
            · rintro ⟨hlen, hcond, hall⟩
              refine ⟨by simpa using Nat.succ_lt_succ hlen, ?_, ?_⟩
              · rw [prevVR_cons, List.getD_cons_succ]
                exact hcond
              · intro i hi
                cases i with
                | zero =>
                    simpa [prevVR, List.getD_cons_zero] using hb
                | succ m =>
                    rw [prevVR_cons, List.getD_cons_succ]
                    exact hall m (by omega)
            · rintro ⟨hlen, hcond, hall⟩
              refine ⟨by simpa using Nat.lt_of_succ_lt_succ hlen, ?_, ?_⟩
              · rw [prevVR_cons, List.getD_cons_succ] at hcond
                exact hcond
              · intro m hm
                have := hall (m + 1) (by omega)
                rw [prevVR_cons, List.getD_cons_succ] at this
                exact this

/-! ## Command emission (`send_manual_control` and the `action_request`
handler of `main`, src/hohman_client.py lines 192-217 and 264-267) -/

/-- The cached telemetry snapshot of hohman_client.py (lines 253-262). -/
structure CachedState where
  tick : ℕ
  x : ℝ
  y : ℝ
  vx : ℝ
  vy : ℝ
  heading : ℝ

/-- The payload of one outbound `manual_action` message. -/
structure ManualMsg where
  tick : ℕ
  turn : ℝ
  thrust : ℝ

/-- The client's tick length `dt = 1/60` (hohman_client.py line 16). -/
noncomputable def hohDt : ℝ := 1 / 60

/-- `send_manual_control` (hohman_client.py lines 192-217), returning the
list of messages sent over the socket by one call: none at all when
`cached_state is None` (the early `return` on line 193), exactly one
otherwise, with the shortest-path turn `((diff + pi) % (2*pi) - pi) / dt`
(Python float `%` is `a - b * floor(a/b)`). -/
noncomputable def send_manual_control (cached : Option CachedState) (tick : ℕ)
    (thrust target_heading : ℝ) : List ManualMsg :=
  match cached with
  | none => []
  | some c =>
      let diff := target_heading - c.heading
      let wrapped :=
        (diff + Real.pi) - 2 * Real.pi * (Int.floor ((diff + Real.pi) / (2 * Real.pi)) : ℝ)
          - Real.pi
      let turn_action := wrapped / hohDt
      [{ tick := tick, turn := turn_action, thrust := thrust }]

/-- Claim C9 counterexample: an `action_request` that arrives before any
state snapshot (cached telemetry still empty) is answered with zero
command messages, not exactly one — `send_manual_control` returns on its
first line when `cached_state is None`. -/
theorem C9_counterexample : (send_manual_control none 0 0 0).length ≠ 1 := by
  simp [send_manual_control]

/-- Claim C9 amended: one call of `send_manual_control` — and hence the
handling of one `action_request` in `main`, which performs exactly one such
call — emits exactly one command message when a telemetry snapshot has been
cached, and zero messages before the first snapshot has arrived. -/
theorem C9_command_count (cached : Option CachedState) (tick : ℕ)
    (thrust target_heading : ℝ) :
    (send_manual_control cached tick thrust target_heading).length =
      if cached.isSome then 1 else 0 := by
  cases cached <;> simp [send_manual_control]

/-! ## `MultiShipOrbitalEnvironment.get_states` (environment.py lines
411-415), with Python reference semantics made explicit

The registry `self.ships` maps a ship id to a mutable dict.  To state what
`{sid: dict(s) for sid, s in self.ships.items()}` copies, records live in
an explicit heap (address -> record) and the registry holds addresses;
`dict(s)` allocates a fresh address holding a copy of the record. -/

/-- `control_type` of a ship record (`'ai'` or `'manual'`). -/
inductive CtrlType
  | ai
  | manual

/-- One ship record, with the fields `add_ship` installs
(environment.py lines 264-272). -/
structure ShipRec where
  x : ℝ
  y : ℝ
  vx : ℝ
  vy : ℝ
  init_r : ℝ
  done : Bool
  control_type : CtrlType
  heading : ℝ
  thrust : ℝ
  turn_rate : ℝ
  steps : ℕ
  tangential_thrust : ℝ

instance : Inhabited ShipRec :=
  ⟨⟨0, 0, 0, 0, 0, false, CtrlType.ai, 0, 0, 0, 0, 0⟩⟩

/-- The multi-ship engine with its registry: a heap of records, the next
fresh address, and `ships` as an association of ship ids to addresses. -/
structure MSEngine where
  heap : ℕ → Option ShipRec
  next : ℕ
  ships : List (ℕ × ℕ)

/-- Writing a record at an address (a Python in-place dict mutation). -/
def hUpdate (h : ℕ → Option ShipRec) (a : ℕ) (r : ShipRec) : ℕ → Option ShipRec :=
  fun n => if n = a then some r else h n

/-- The comprehension `{sid: dict(s) for sid, s in self.ships.items()}`:
for each registry entry, read the record and allocate a fresh copy. -/
def get_states_aux (h : ℕ → Option ShipRec) (n : ℕ) :
    List (ℕ × ℕ) → ((ℕ → Option ShipRec) × ℕ × List (ℕ × ℕ))
  | [] => (h, n, [])
  | (sid, a) :: rest =>
      let r := (h a).getD default
      let res := get_states_aux (hUpdate h n r) (n + 1) rest
      (res.1, res.2.1, (sid, n) :: res.2.2)

/-- `MultiShipOrbitalEnvironment.get_states` (environment.py lines
411-415): returns the fresh mapping and the engine (whose registry is
untouched; only new copies were allocated). -/
def get_states (e : MSEngine) : MSEngine × List (ℕ × ℕ) :=
  let res := get_states_aux e.heap e.next e.ships
  ({ heap := res.1, next := res.2.1, ships := e.ships }, res.2.2)

lemma get_states_aux_low (l : List (ℕ × ℕ)) :
    ∀ (h : ℕ → Option ShipRec) (n : ℕ) (a : ℕ), a < n →
      (get_states_aux h n l).1 a = h a := by
  induction l with
  | nil => intro h n a _; rfl
  | cons p rest ih =>
      intro h n a ha
      obtain ⟨sid, b⟩ := p
      show (get_states_aux (hUpdate h n ((h b).getD default)) (n + 1) rest).1 a = h a
      rw [ih _ (n + 1) a (by omega)]
      exact if_neg (by omega)

lemma get_states_aux_fresh (l : List (ℕ × ℕ)) :
    ∀ (h : ℕ → Option ShipRec) (n : ℕ),
      ∀ p ∈ (get_states_aux h n l).2.2, n ≤ p.2 := by
  induction l with
  | nil => intro h n p hp; exact absurd hp (List.not_mem_nil p)
  | cons q rest ih =>
      intro h n p hp
      obtain ⟨sid, b⟩ := q
      rcases List.mem_cons.mp hp with hcase | hcase
      · rw [hcase]
      · exact le_trans (by omega) (ih _ (n + 1) p hcase)

lemma forall₂_imp_of_mem {α β : Type} {R S : α → β → Prop} :
    ∀ {l1 : List α} {l2 : List β}, List.Forall₂ R l1 l2 →
      (∀ a b, b ∈ l2 → R a b → S a b) → List.Forall₂ S l1 l2 := by
  intro l1 l2 hf
  induction hf with
  | nil => intro _; exact List.Forall₂.nil
  | @cons a b l1' l2' hab _ ih =>
      intro hmem
      exact List.Forall₂.cons (hmem a b (List.mem_cons_self b l2') hab)
        (ih fun a' b' hb' hr => hmem a' b' (List.mem_cons_of_mem b hb') hr)

lemma get_states_aux_contents (l : List (ℕ × ℕ)) :
    ∀ (h : ℕ → Option ShipRec) (n : ℕ), (∀ p ∈ l, p.2 < n) →
      List.Forall₂
        (fun p q : ℕ × ℕ => p.1 = q.1 ∧
          (get_states_aux h n l).1 p.2 = some ((h q.2).getD default))
        (get_states_aux h n l).2.2 l := by
  induction l with
  | nil => intro h n _; exact List.Forall₂.nil
  | cons q rest ih =>
      intro h n hlt
      obtain ⟨sid, b⟩ := q
      have hb : b < n := hlt (sid, b) (List.mem_cons_self _ _)
      refine List.Forall₂.cons ⟨rfl, ?_⟩ ?_
      · show (get_states_aux (hUpdate h n ((h b).getD default)) (n + 1) rest).1 n =
          some ((h b).getD default)
        rw [get_states_aux_low rest _ (n + 1) n (by omega)]
        exact if_pos rfl
      · have ihr := ih (hUpdate h n ((h b).getD default)) (n + 1)
          (fun p hp => lt_trans (hlt p (List.mem_cons_of_mem _ hp)) (by omega))
        refine forall₂_imp_of_mem ihr ?_
        rintro p q' hq' ⟨h1, h2⟩
        refine ⟨h1, ?_⟩
        show (get_states_aux (hUpdate h n ((h b).getD default)) (n + 1) rest).1 p.2 =
          some ((h q'.2).getD default)
        rw [h2]
        simp only [hUpdate]
        rw [if_neg (by have := hlt q' (List.mem_cons_of_mem _ hq'); omega)]

/-- Claim C10: `get_states` returns a fresh mapping whose per-ship records
are copies of the registry entries: (i) the engine's registry association
is unchanged, (ii) every registry record is untouched by the call, (iii)
every returned address is distinct from every registry address, (iv) the
returned mapping carries the same ship ids in order and each returned
address holds a copy of the corresponding registry record as of call time,
and (v) overwriting any returned record leaves every registry record
unchanged. -/
theorem C10_get_states_copies (e : MSEngine)
    (hwf : ∀ p ∈ e.ships, p.2 < e.next) :
    (get_states e).1.ships = e.ships ∧
      (∀ a : ℕ, (∃ sid, (sid, a) ∈ e.ships) → (get_states e).1.heap a = e.heap a) ∧
      (∀ p ∈ (get_states e).2, ∀ q ∈ e.ships, p.2 ≠ q.2) ∧
      List.Forall₂
        (fun p q : ℕ × ℕ => p.1 = q.1 ∧
          (get_states e).1.heap p.2 = some ((e.heap q.2).getD default))
        (get_states e).2 e.ships ∧
      (∀ b ∈ ((get_states e).2).map Prod.snd, ∀ r : ShipRec, ∀ a : ℕ,
        (∃ sid, (sid, a) ∈ e.ships) → hUpdate (get_states e).1.heap b r a = e.heap a) := by
  have hlow : ∀ a : ℕ, (∃ sid, (sid, a) ∈ e.ships) → (get_states e).1.heap a = e.heap a := by
    rintro a ⟨sid, hmem⟩
    exact get_states_aux_low e.ships e.heap e.next a (hwf (sid, a) hmem)
  refine ⟨rfl, hlow, ?_, ?_, ?_⟩
  · intro p hp q hq
    have h1 : e.next ≤ p.2 := get_states_aux_fresh e.ships e.heap e.next p hp
    have h2 : q.2 < e.next := hwf q hq
    omega
  · exact get_states_aux_contents e.ships e.heap e.next (fun p hp => hwf p hp)
  · rintro b hb r a ⟨sid, hmem⟩
    obtain ⟨p, hp, hpb⟩ := List.mem_map.mp hb
    have h1 : e.next ≤ b := hpb ▸ get_states_aux_fresh e.ships e.heap e.next p hp
    have h2 : a < e.next := hwf (sid, a) hmem
    rw [hUpdate, if_neg (by omega)]
    exact hlow a ⟨sid, hmem⟩

/-- A one-ship engine used to witness claim C10: ship id 7 whose record
lives at address 0, next fresh address 1. -/
def E0 : MSEngine :=
  { heap := fun n => if n = 0 then some default else none
    next := 1
    ships := [(7, 0)] }

/-- Claim C10 witness: the copy guarantees instantiated on the concrete
one-ship engine `E0`. -/
theorem C10_get_states_witness :
    (get_states E0).1.ships = E0.ships ∧
      (∀ a : ℕ, (∃ sid, (sid, a) ∈ E0.ships) → (get_states E0).1.heap a = E0.heap a) ∧
      (∀ p ∈ (get_states E0).2, ∀ q ∈ E0.ships, p.2 ≠ q.2) ∧
      List.Forall₂
        (fun p q : ℕ × ℕ => p.1 = q.1 ∧
          (get_states E0).1.heap p.2 = some ((E0.heap q.2).getD default))
        (get_states E0).2 E0.ships ∧
      (∀ b ∈ ((get_states E0).2).map Prod.snd, ∀ r : ShipRec, ∀ a : ℕ,
        (∃ sid, (sid, a) ∈ E0.ships) → hUpdate (get_states E0).1.heap b r a = E0.heap a) :=
  C10_get_states_copies E0 (by
    intro p hp
    have : p = (7, 0) := by
      simpa [E0] using hp
    rw [this]
    decide)

end GravNav
